import Mathlib

/-!
Verification development for the Helios network-observability platform
(services/target-generator, services/flow-enricher, services/runbook-operator).

Each Go function relevant to the checked properties is shallowly embedded as
an executable Lean definition, keeping the source's names and control flow.
Go maps used only for key/value lookup are embedded as association lists with
last-write-wins insertion; machine integers are embedded as `Nat`/`Int` with
explicit `% 2^32` where Go performs a wrapping conversion.
-/

namespace Helios

/-- Association-list lookup, the embedding of a Go `map[string]string` read
(`v, ok := m[k]`). -/
def lookupLabel (k : String) (labels : List (String × String)) : Option String :=
  (labels.find? (fun p => p.1 = k)).map (·.2)

/-! ## Target generator: device model (services/target-generator/internal/netbox) -/

/-- Embedding of `netbox.DeviceCustomFields` (fields used by the generators). -/
structure DeviceCustomFields where
  gnmiEnabled : Bool
  gnmiPort : Nat
  snmpEnabled : Bool
  snmpModule : String
  blackboxProbes : List String
deriving Repr, DecidableEq

/-- Embedding of `netbox.Device` (fields used by the generators). -/
structure Device where
  id : Nat
  name : String
  primaryIP : String
  site : String
  region : String
  role : String
  manufacturer : String
  platform : String
  status : String
  monitoringTier : String
  telemetryProfile : String
  customFields : DeviceCustomFields
deriving Repr, DecidableEq

/-- Embedding of `generator.PrometheusFileSDEntry`. -/
structure PrometheusFileSDEntry where
  targets : List String
  labels : List (String × String)
deriving Repr, DecidableEq

/-- Embedding of `generator.GNMICTarget`. -/
structure GNMICTarget where
  address : String
  labels : List (String × String)
  subscriptions : List String
deriving Repr, DecidableEq

/-- The seven-key label taxonomy of the generator package (`LabelTaxonomy`,
exercised by `TestGenerateSNMPTargets_LabelTaxonomy` and `TestBuildLabels`). -/
def LabelTaxonomy : List String :=
  ["device", "site", "region", "vendor", "platform", "role", "tier"]

/-- Embedding of `generator.defaultSNMPModule`. -/
def defaultSNMPModule (manufacturer platform : String) : String :=
  if manufacturer = "arista" then "arista_eos"
  else if manufacturer = "cisco" then
    if platform = "iosxe" then "cisco_iosxe"
    else if platform = "nxos" then "cisco_nxos"
    else "cisco_ios"
  else if manufacturer = "juniper" then "juniper_junos"
  else if manufacturer = "paloalto" then "paloalto_panos"
  else "if_mib"

/-- Embedding of the entry-building loop of `generator.GenerateSNMPTargets`
(the final JSON rendering of the entry list is not modelled). -/
def generateSNMPEntries (devices : List Device) : List PrometheusFileSDEntry :=
  devices.filterMap (fun d =>
    if !d.customFields.snmpEnabled || d.primaryIP = "" then none
    else
      let module :=
        if d.customFields.snmpModule = "" then
          defaultSNMPModule d.manufacturer d.platform
        else d.customFields.snmpModule
      some { targets := [d.primaryIP],
             labels := [("device", d.name), ("site", d.site), ("region", d.region),
                        ("vendor", d.manufacturer), ("platform", d.platform),
                        ("role", d.role), ("tier", d.monitoringTier),
                        ("__param_module", module)] })

/-- Embedding of `generator.defaultSubscriptions`. -/
def defaultSubscriptions (d : Device) : List String :=
  if d.telemetryProfile ≠ "" then
    ["default-counters", "default-system", d.telemetryProfile]
  else
    ["default-counters", "default-system", "default-bgp"]

/-- Embedding of the target-building loop of `generator.GenerateGNMICTargets`:
the `targets` Go map is embedded as the list of key/target pairs in insertion
order (the final YAML rendering is not modelled). -/
def generateGNMICTargets (devices : List Device) : List (String × GNMICTarget) :=
  devices.filterMap (fun d =>
    if !d.customFields.gnmiEnabled || d.primaryIP = "" then none
    else
      let port := if d.customFields.gnmiPort = 0 then 6030 else d.customFields.gnmiPort
      some (d.name ++ ":" ++ toString port,
            { address := d.primaryIP ++ ":" ++ toString port,
              labels := [("device", d.name), ("site", d.site), ("region", d.region),
                         ("vendor", d.manufacturer), ("platform", d.platform),
                         ("role", d.role), ("tier", d.monitoringTier)],
              subscriptions := defaultSubscriptions d }))

/-- Embedding of `generator.targetForProbe`. -/
def targetForProbe (d : Device) (probe : String) : String :=
  if probe = "icmp" then d.primaryIP
  else if probe = "tcp_connect" then d.primaryIP ++ ":22"
  else if probe = "http_2xx" then "https://" ++ d.primaryIP
  else d.primaryIP

/-- Embedding of the entry-building loop of `generator.GenerateBlackboxTargets`:
the per-probe Go map is embedded as the list of (probe, entry) pairs in
emission order (the final JSON rendering per probe is not modelled). -/
def generateBlackboxEntries (devices : List Device) : List (String × PrometheusFileSDEntry) :=
  (devices.filter (fun d => d.primaryIP ≠ "")).flatMap (fun d =>
    let probes :=
      if d.customFields.blackboxProbes = [] then ["icmp"]
      else d.customFields.blackboxProbes
    probes.filterMap (fun probe =>
      let target := targetForProbe d probe
      if target = "" then none
      else some (probe,
        { targets := [target],
          labels := [("device", d.name), ("site", d.site), ("region", d.region),
                     ("__param_module", probe)] })))

/-! ## Target synchronizer: ConfigMap writer (kubernetes.ConfigMapUpdater) -/

/-- Embedding of the data/labels/annotations carried by a stored
`corev1.ConfigMap`. -/
structure StoredConfigMap where
  data : List (String × String)
  labels : List (String × String)
  annotations : List (String × String)
deriving Repr

/-- One outcome recorded on the `configMapUpdates` counter by
`ConfigMapUpdater.UpdateConfigMap`. -/
inductive CMOp where
  | created (name : String)
  | updated (name : String)
  | errored (name : String)
deriving Repr, DecidableEq

/-- Embedding of `countTargets`. -/
def countTargets (data : List (String × String)) : Nat :=
  data.length

/-- Error injection for the two configuration-store writes that
`UpdateConfigMap` can perform. -/
structure K8sWriteEnv where
  createFails : Bool
  updateFails : Bool
deriving Repr

/-- Embedding of `ConfigMapUpdater.UpdateConfigMap`. The configuration store
is a name-indexed map; `now` stands for the RFC3339 rendering of `time.Now()`.
Returns the store after the call, the counter increments performed, and the
call's result. -/
def UpdateConfigMap (store : String → Option StoredConfigMap) (name : String)
    (data labels : List (String × String)) (now : String) (env : K8sWriteEnv) :
    (String → Option StoredConfigMap) × List CMOp × Except String Unit :=
  if data = [] then
    (store, [], Except.ok ())
  else
    let annotations := [("helios.io/last-sync", now),
                        ("helios.io/device-count", toString (countTargets data))]
    let cm : StoredConfigMap := { data := data, labels := labels, annotations := annotations }
    match store name with
    | none =>
        if env.createFails then
          (store, [CMOp.errored name], Except.error ("creating ConfigMap " ++ name))
        else
          (fun n => if n = name then some cm else store n, [CMOp.created name], Except.ok ())
    | some existing =>
        let updatedCM : StoredConfigMap :=
          { existing with data := data, labels := labels, annotations := annotations }
        if env.updateFails then
          (store, [CMOp.errored name], Except.error ("updating ConfigMap " ++ name))
        else
          (fun n => if n = name then some updatedCM else store n, [CMOp.updated name], Except.ok ())

/-! ## Flow enricher: device-metadata cache (internal/enricher/netbox cache) -/

/-- Association-list lookup for an arbitrary key type, the embedding of a Go
map read `v, ok := m[k]`. -/
def assocLookup {α β : Type} [DecidableEq α] (k : α) (l : List (α × β)) : Option β :=
  (l.find? (fun p => p.1 = k)).map (·.2)

/-- Association-list insert, the embedding of a Go map write `m[k] = v`: the
newest binding is placed first, so an `assocLookup` after the write returns
`v` for `k` and the previous binding for every other key, exactly the Go map
read-after-write behaviour. -/
def assocInsert {α β : Type} [DecidableEq α] (l : List (α × β)) (k : α) (v : β) :
    List (α × β) :=
  (k, v) :: l

/-- Embedding of `enricher.InterfaceMetadata`. `speed` is a Go `uint64`. -/
structure InterfaceMetadata where
  name : String
  speed : Nat
deriving Repr, DecidableEq

/-- Embedding of `enricher.DeviceMetadata`; the `Interfaces` Go map (keyed by
`uint32` SNMP index) is an association list. -/
structure DeviceMetadata where
  name : String
  site : String
  region : String
  role : String
  interfaces : List (Nat × InterfaceMetadata)
deriving Repr, DecidableEq

/-- Embedding of `enricher.netboxInterface` as it stands after JSON
unmarshalling: `customFieldsSNMPIndex` is `none` when either the
`custom_fields` pointer or its `snmp_index` pointer is nil, and `speed` is
`none` when the nullable `speed` field is absent. -/
structure NetboxInterfaceRecord where
  id : Nat
  name : String
  speed : Option Int
  customFieldsSNMPIndex : Option Int
  label : String
deriving Repr, DecidableEq

/-- Model of `fmt.Sscanf(s, "%d", &parsed)`: skip leading whitespace, accept
an optional sign and a non-empty run of decimal digits, ignore any trailing
input. Returns `none` exactly when the scan errors. -/
def sscanfInt (s : String) : Option Int :=
  let cs := s.data.dropWhile (fun c => c = ' ' ∨ c = '\t' ∨ c = '\n' ∨ c = '\r')
  let (neg, cs) : Bool × List Char :=
    match cs with
    | '-' :: rest => (true, rest)
    | '+' :: rest => (false, rest)
    | rest => (false, rest)
  let digits := cs.takeWhile (fun c => c.isDigit)
  if digits = [] then none
  else
    let v : Nat := digits.foldl (fun acc c => acc * 10 + (c.toNat - '0'.toNat)) 0
    some (if neg then -(v : Int) else (v : Int))

/-- The SNMP-index selection of `NetBoxCache.fetchInterfaces`: prefer the
typed `custom_fields.snmp_index` (Go `uint32(*v)` wrapping conversion),
otherwise parse a non-empty `label` with `fmt.Sscanf`, keeping only results
that are positive before the `uint32` conversion. -/
def ifaceSNMPIndex (iface : NetboxInterfaceRecord) : Nat :=
  match iface.customFieldsSNMPIndex with
  | some v => (v % (2 ^ 32 : Int)).toNat
  | none =>
    if iface.label ≠ "" then
      match sscanfInt iface.label with
      | some parsed => if parsed > 0 then (parsed % (2 ^ 32 : Int)).toNat else 0
      | none => 0
    else 0

/-- The body of the record loop of `NetBoxCache.fetchInterfaces`: a record
whose computed SNMP index is zero is skipped, otherwise its metadata is
written into the submap under that index (the nullable `speed` defaults to
zero, with the Go `uint64` wrapping conversion). -/
def fetchInterfacesStep (interfaces : List (Nat × InterfaceMetadata))
    (iface : NetboxInterfaceRecord) : List (Nat × InterfaceMetadata) :=
  let snmpIndex := ifaceSNMPIndex iface
  if snmpIndex = 0 then interfaces
  else
    let speed : Nat :=
      match iface.speed with
      | some s => (s % (2 ^ 64 : Int)).toNat
      | none => 0
    assocInsert interfaces snmpIndex { name := iface.name, speed := speed }

/-- Embedding of the record loop of `NetBoxCache.fetchInterfaces`: build the
device's interface submap from the already-unmarshalled interface records of
all pages (pagination and per-record JSON errors are not modelled). -/
def fetchInterfaces (ifaces : List NetboxInterfaceRecord) : List (Nat × InterfaceMetadata) :=
  ifaces.foldl fetchInterfacesStep []

/-! ## Flow enricher: record enrichment (internal/enricher/enricher.go) -/

/-- Embedding of the fields of the `EnrichedFlow` protobuf message that the
enricher reads or writes. `exporterIp`, `inIf`, `outIf`, `srcAs`, `dstAs` are
Go `uint32`; `srcIp`/`dstIp` are byte vectors. -/
structure EnrichedFlow where
  exporterIp : Nat
  inIf : Nat
  outIf : Nat
  srcIp : List Nat
  dstIp : List Nat
  srcAs : Nat
  dstAs : Nat
  exporterName : String
  exporterSite : String
  exporterRegion : String
  exporterRole : String
  inIfName : String
  inIfSpeed : Nat
  outIfName : String
  outIfSpeed : Nat
  srcCountry : String
  srcCity : String
  srcAsName : String
  dstCountry : String
  dstCity : String
  dstAsName : String
deriving Repr, DecidableEq

/-- Embedding of `uint32ToIP` composed with `net.IP.String()`: the dotted-quad
rendering of a 32-bit big-endian IPv4 address. -/
def uint32ToIPString (ip : Nat) : String :=
  toString (ip / 2 ^ 24 % 256) ++ "." ++ toString (ip / 2 ^ 16 % 256) ++ "." ++
    toString (ip / 2 ^ 8 % 256) ++ "." ++ toString (ip % 256)

/-- Embedding of `Enricher.applyNetBoxMetadata`; the cache's `devices` map
(keyed by management IP string) is passed explicitly. -/
def applyNetBoxMetadata (devices : List (String × DeviceMetadata)) (flow : EnrichedFlow) :
    EnrichedFlow :=
  match assocLookup (uint32ToIPString flow.exporterIp) devices with
  | none => flow
  | some device =>
    let flow := { flow with
      exporterName := device.name
      exporterSite := device.site
      exporterRegion := device.region
      exporterRole := device.role }
    let flow :=
      match assocLookup flow.inIf device.interfaces with
      | some iface => { flow with inIfName := iface.name, inIfSpeed := iface.speed }
      | none => flow
    match assocLookup flow.outIf device.interfaces with
    | some iface => { flow with outIfName := iface.name, outIfSpeed := iface.speed }
    | none => flow

/-- Result of a `GeoIPReader.Lookup` call. -/
structure GeoResult where
  country : String
  city : String
  asName : String
  asNum : Nat
deriving Repr, DecidableEq

/-- Embedding of `Enricher.applyGeoIP`; the reader is `none` when the Go
`e.geoip` pointer is nil, otherwise its `Lookup` function. -/
def applyGeoIP (geoip : Option (List Nat → GeoResult)) (flow : EnrichedFlow) :
    EnrichedFlow :=
  match geoip with
  | none => flow
  | some lookup =>
    let flow :=
      if flow.srcIp ≠ [] then
        let srcResult := lookup flow.srcIp
        let f := { flow with
          srcCountry := srcResult.country
          srcCity := srcResult.city
          srcAsName := srcResult.asName }
        if f.srcAs = 0 then { f with srcAs := srcResult.asNum } else f
      else flow
    if flow.dstIp ≠ [] then
      let dstResult := lookup flow.dstIp
      let f := { flow with
        dstCountry := dstResult.country
        dstCity := dstResult.city
        dstAsName := dstResult.asName }
      if f.dstAs = 0 then { f with dstAs := dstResult.asNum } else f
    else flow

/-- Embedding of `Enricher.Enrich`. -/
def Enrich (devices : List (String × DeviceMetadata))
    (geoip : Option (List Nat → GeoResult)) (flow : EnrichedFlow) : EnrichedFlow :=
  applyGeoIP geoip (applyNetBoxMetadata devices flow)

/-! ## gNMI client: path parsing (pkg/gnmic/set.go) -/

/-- Embedding of the character loop of `gnmic.splitPath`. -/
def splitPathAux : List Char → String → List String
  | [], current => if current ≠ "" then [current] else []
  | ch :: rest, current =>
    if ch = '/' then
      if current ≠ "" then current :: splitPathAux rest ""
      else splitPathAux rest ""
    else splitPathAux rest (current.push ch)

/-- Embedding of `gnmic.splitPath`. -/
def splitPath (path : String) : List String :=
  splitPathAux path.data ""

/-- Embedding of `gnmic.parsePath`; a `gnmipb.Path` is represented by its list
of element names. -/
def parsePath (pathStr : String) : Except String (List String) :=
  if pathStr = "" ∨ pathStr = "/" then Except.ok []
  else Except.ok ((splitPath pathStr).filter (fun elem => elem ≠ ""))

/-- Embedding of the path-collection loop shared by `Client.Get` and
`Client.Subscribe`: parse each path, failing fast with the `invalid path`
error if any parse fails. -/
def collectPaths : List String → Except String (List (List String))
  | [] => Except.ok []
  | p :: rest =>
    match parsePath p with
    | Except.error e => Except.error ("invalid path " ++ p ++ ": " ++ e)
    | Except.ok path =>
      match collectPaths rest with
      | Except.error e => Except.error e
      | Except.ok paths => Except.ok (path :: paths)

/-! ## Runbook executor: sequential step execution (cmd/executor main.go) -/

/-- Step status values of the `v1alpha1` API. -/
inductive StepStatus where
  | pending
  | running
  | completed
  | failed
  | skipped
deriving Repr, DecidableEq, Inhabited

/-- One step of the executor's `run` loop together with the environment's
responses to its external calls: `condResult` is what `tmplEngine.Render`
returns for the step's condition (used only when `condition` is non-empty) and
`execOutcome` is the result of `executeStep`. -/
structure StepInput where
  name : String
  condition : String
  continueOnError : Bool
  condResult : String
  execOutcome : Except String String
deriving Repr

/-- Embedding of the step loop of the executor's `run`: statuses start as
`pending`; a step whose condition renders `"false"` or `""` becomes `skipped`;
a failing step becomes `failed` and, without `continueOnError`, sets the exit
code to 1 and breaks, leaving the remaining statuses `pending`. -/
def runStepsLoop : List StepInput → List StepStatus × Nat
  | [] => ([], 0)
  | step :: rest =>
    if step.condition ≠ "" ∧ (step.condResult = "false" ∨ step.condResult = "") then
      let (tl, code) := runStepsLoop rest
      (StepStatus.skipped :: tl, code)
    else
      match step.execOutcome with
      | Except.ok _ =>
        let (tl, code) := runStepsLoop rest
        (StepStatus.completed :: tl, code)
      | Except.error _ =>
        if step.continueOnError then
          let (tl, code) := runStepsLoop rest
          (StepStatus.failed :: tl, code)
        else
          (StepStatus.failed :: rest.map (fun _ => StepStatus.pending), 1)

/-- Embedding of the executor's final pass: every step still `pending` is
marked `skipped`. -/
def finalizeStatuses (statuses : List StepStatus) : List StepStatus :=
  statuses.map (fun s => if s = StepStatus.pending then StepStatus.skipped else s)

/-- Embedding of the executor's `run`: the step loop followed by the
pending-to-skipped pass, returning the final step statuses and the process
exit code. -/
def runExecutor (steps : List StepInput) : List StepStatus × Nat :=
  let (statuses, exitCode) := runStepsLoop steps
  (finalizeStatuses statuses, exitCode)

/-! ## Concrete fixtures (used as witness and counterexample inputs) -/

/-- The first sample device of the generator tests (`sampleDevices`). -/
def router1 : Device :=
  { id := 1, name := "router-1", primaryIP := "10.0.0.1", site := "dc1",
    region := "us-east", role := "router", manufacturer := "arista",
    platform := "eos", status := "active", monitoringTier := "premium",
    telemetryProfile := "",
    customFields := { gnmiEnabled := true, gnmiPort := 6030, snmpEnabled := true,
                      snmpModule := "arista_sw",
                      blackboxProbes := ["icmp", "tcp_connect"] } }

/-- A raw flow record as in the enrich-cache-hit scenario: exporter
`10.0.0.1` (0x0A000001), input interface 1, output interface 2, all
enrichment fields empty. -/
def flow5 : EnrichedFlow :=
  { exporterIp := 167772161, inIf := 1, outIf := 2, srcIp := [], dstIp := [],
    srcAs := 0, dstAs := 0, exporterName := "", exporterSite := "",
    exporterRegion := "", exporterRole := "", inIfName := "", inIfSpeed := 0,
    outIfName := "", outIfSpeed := 0, srcCountry := "", srcCity := "",
    srcAsName := "", dstCountry := "", dstCity := "", dstAsName := "" }

/-- The device-metadata cache of the enrich-cache-hit scenario. -/
def dc1Cache : List (String × DeviceMetadata) :=
  [("10.0.0.1",
    { name := "router-1", site := "dc1", region := "us-east", role := "router",
      interfaces := [(1, { name := "Ethernet1", speed := 10000 }),
                     (2, { name := "Ethernet2", speed := 25000 })] })]

/-- A fixed GeoIP lookup answer used as a concrete reader. -/
def geoFixture : List Nat → GeoResult :=
  fun _ => { country := "US", city := "Ashburn", asName := "EXAMPLE-AS", asNum := 64512 }

/-- A two-step run whose first step fails without `continueOnError`. -/
def sampleSteps : List StepInput :=
  [{ name := "set", condition := "", continueOnError := false, condResult := "",
     execOutcome := Except.error "rpc failed" },
   { name := "verify", condition := "", continueOnError := false, condResult := "",
     execOutcome := Except.ok "ok" }]

/-- Inventory interface records: a typed custom-field index, a numeric label
fallback, and a non-numeric label. -/
def sampleIfaces : List NetboxInterfaceRecord :=
  [{ id := 1, name := "Ethernet1", speed := some 10000,
     customFieldsSNMPIndex := some 1, label := "" },
   { id := 2, name := "Ethernet2", speed := some 25000,
     customFieldsSNMPIndex := none, label := "2" },
   { id := 3, name := "mgmt0", speed := none,
     customFieldsSNMPIndex := none, label := "mgmt" }]

/-! ## Model of Go `time.ParseDuration`

The controller's approval timeout is computed with the Go standard library's
`time.ParseDuration`. It is modelled here on the grammar
`[-+]?([0-9]*(\.[0-9]*)?(ns|us|µs|μs|ms|s|m|h))+` with the special case that
`"0"` (optionally signed) parses to zero; `none` is the model of a parse
error. Fractions are computed by exact truncating division and the int64
overflow error is not modelled. The result is in nanoseconds. -/

/-- Nanoseconds per unit, the model of `unitMap` in Go `time`. -/
def durUnitNs (u : String) : Option Nat :=
  if u = "ns" then some 1
  else if u = "us" then some 1000
  else if u = "µs" then some 1000
  else if u = "μs" then some 1000
  else if u = "ms" then some 1000000
  else if u = "s" then some 1000000000
  else if u = "m" then some 60000000000
  else if u = "h" then some 3600000000000
  else none

/-- Decimal value of a digit run. -/
def digitsVal (ds : List Char) : Nat :=
  ds.foldl (fun acc c => acc * 10 + (c.toNat - '0'.toNat)) 0

/-- One pass of the `for s != ""` component loop of `time.ParseDuration`,
with fuel bounding the number of components. -/
def parseDurComponents : Nat → List Char → Option Nat
  | _, [] => some 0
  | 0, _ :: _ => none
  | Nat.succ fuel, cs =>
    let intDigits := cs.takeWhile (fun c => c.isDigit)
    let afterInt := cs.drop intDigits.length
    let hasDot : Bool := match afterInt with | '.' :: _ => true | _ => false
    let fracDigits := if hasDot then (afterInt.drop 1).takeWhile (fun c => c.isDigit) else []
    let afterFrac := if hasDot then (afterInt.drop 1).drop fracDigits.length else afterInt
    if intDigits = [] ∧ fracDigits = [] then none
    else
      let unit := afterFrac.takeWhile (fun c => ¬(c.isDigit ∨ c = '.'))
      let rest := afterFrac.drop unit.length
      if unit = [] then none
      else
        match durUnitNs (String.mk unit) with
        | none => none
        | some mult =>
          let value := digitsVal intDigits * mult +
            digitsVal fracDigits * mult / 10 ^ fracDigits.length
          match parseDurComponents fuel rest with
          | none => none
          | some restVal => some (value + restVal)

/-- Model of Go `time.ParseDuration`; `none` is a parse error, otherwise the
duration in nanoseconds. -/
def parseDuration (s : String) : Option Int :=
  let (neg, cs) : Bool × List Char :=
    match s.data with
    | '-' :: rest => (true, rest)
    | '+' :: rest => (false, rest)
    | rest => (false, rest)
  if cs = ['0'] then some 0
  else if cs = [] then none
  else
    match parseDurComponents cs.length cs with
    | none => none
    | some n => some (if neg then -(n : Int) else (n : Int))

/-! ## Runbook controller: execution state machine
(controllers/runbookexecution_controller.go) -/

/-- The `v1alpha1.ExecutionPhase` values. -/
inductive ExecutionPhase where
  | pending
  | pendingApproval
  | approved
  | running
  | completed
  | failed
  | cancelled
  | timedOut
  | rollingBack
  | rolledBack
deriving Repr, DecidableEq

/-- Embedding of `v1alpha1.Approver`. -/
structure Approver where
  approverType : String
  name : String
deriving Repr, DecidableEq

/-- Embedding of `v1alpha1.RunbookStep` (the `config` map is not modelled). -/
structure RunbookStep where
  name : String
  action : String
  timeout : String
  continueOnError : Bool
  condition : String
deriving Repr, DecidableEq

/-- Embedding of the `v1alpha1.RunbookSpec` fields the execution controller
reads. -/
structure RunbookSpec where
  name : String
  requiresApproval : Bool
  approvers : List Approver
  approvalTimeout : String
  steps : List RunbookStep
  rollback : List RunbookStep
deriving Repr, DecidableEq

/-- Observed status of a worker Job: `active` until the Job controller reports
`Succeeded > 0` or `Failed > 0`. -/
inductive JobStatus where
  | active
  | succeeded
  | failed
deriving Repr, DecidableEq

/-- The controller-visible state of one execution: its status fields together
with the two worker Jobs the controller may own (`<name>-executor` and
`<name>-rollback`), `none` when the Job does not exist. `phase = none` is the
empty phase string of a newborn resource. -/
structure ExecState where
  name : String
  phase : Option ExecutionPhase
  startTimeSet : Bool
  completionTimeSet : Bool
  approvedBy : String
  message : String
  jobName : String
  executorJob : Option JobStatus
  rollbackJob : Option JobStatus
deriving Repr, DecidableEq

/-- The environment of one reconcile call: the result of `getRunbook` (`none`
is a fetch error), `time.Since(exec.CreationTimestamp)` in nanoseconds, and
whether a Job create would fail. -/
structure ReconcileEnv where
  runbook : Option RunbookSpec
  elapsedNs : Int
  createFails : Bool

/-- Embedding of `RunbookExecutionReconciler.setPhase` (the condition history
is not modelled). -/
def setPhase (s : ExecState) (phase : ExecutionPhase) (message : String) : ExecState :=
  { s with phase := some phase, message := message }

/-- The effective approval timeout of `handlePendingApproval`:
`timeout, _ := time.ParseDuration(...)` maps a parse error to zero, and a zero
timeout is replaced by one hour. -/
def approvalTimeoutNs (approvalTimeout : String) : Int :=
  let timeout := (parseDuration approvalTimeout).getD 0
  if timeout = 0 then 3600000000000 else timeout

/-- The approval timeout as the specification's words describe it: the parsed
`approvalTimeout`, defaulting to one hour exactly when the string is unset or
unparseable. Stated for comparison with `approvalTimeoutNs`. -/
def specApprovalTimeoutNs (approvalTimeout : String) : Int :=
  match parseDuration approvalTimeout with
  | none => 3600000000000
  | some t => t

/-- Embedding of `RunbookExecutionReconciler.handlePending`. -/
def handlePending (s : ExecState) (env : ReconcileEnv) : ExecState :=
  match env.runbook with
  | none => setPhase s ExecutionPhase.failed "failed to get runbook"
  | some runbook =>
    if runbook.requiresApproval then
      setPhase s ExecutionPhase.pendingApproval "Awaiting approval"
    else
      setPhase { s with startTimeSet := true } ExecutionPhase.running "Starting execution"

/-- The `fmt.Sprintf` message of the rejected-approver branch; `%q` is
modelled as plain double-quoting (exact for approver names that need no
escapes). -/
def approverRejectedMessage (approvedBy : String) : String :=
  "approver \"" ++ approvedBy ++ "\" is not in the runbook's approved approvers list"

/-- Embedding of `RunbookExecutionReconciler.handlePendingApproval`. A
`getRunbook` error returns with the state unchanged. -/
def handlePendingApproval (s : ExecState) (env : ReconcileEnv) : ExecState :=
  if s.approvedBy ≠ "" then
    match env.runbook with
    | none => s
    | some runbook =>
      let approverValid := runbook.approvers.any (fun a => a.name = s.approvedBy)
      if !approverValid then
        setPhase s ExecutionPhase.failed (approverRejectedMessage s.approvedBy)
      else
        setPhase { s with startTimeSet := true } ExecutionPhase.approved
          "Approved, starting execution"
  else
    match env.runbook with
    | none => s
    | some runbook =>
      if env.elapsedNs > approvalTimeoutNs runbook.approvalTimeout then
        setPhase s ExecutionPhase.timedOut "Approval timeout exceeded"
      else s

/-- Embedding of `RunbookExecutionReconciler.handleApproved`. -/
def handleApproved (s : ExecState) (_env : ReconcileEnv) : ExecState :=
  setPhase { s with startTimeSet := true } ExecutionPhase.running "Starting execution"

/-- Embedding of `RunbookExecutionReconciler.handleRunning` (the duration
string is not modelled). -/
def handleRunning (s : ExecState) (env : ReconcileEnv) : ExecState :=
  match s.executorJob with
  | none =>
    if env.createFails then s
    else
      { s with executorJob := some JobStatus.active, jobName := s.name ++ "-executor" }
  | some job =>
    if job = JobStatus.succeeded then
      setPhase { s with completionTimeSet := true } ExecutionPhase.completed
        "Execution completed successfully"
    else if job = JobStatus.failed then
      setPhase s ExecutionPhase.failed "Executor job failed"
    else s

/-- Embedding of `RunbookExecutionReconciler.handleFailed`. -/
def handleFailed (s : ExecState) (env : ReconcileEnv) : ExecState :=
  match env.runbook with
  | none => s
  | some runbook =>
    if runbook.rollback ≠ [] then
      setPhase s ExecutionPhase.rollingBack "Initiating rollback"
    else
      { s with completionTimeSet := true }

/-- Embedding of `RunbookExecutionReconciler.handleRollingBack`. -/
def handleRollingBack (s : ExecState) (env : ReconcileEnv) : ExecState :=
  match s.rollbackJob with
  | none =>
    if env.createFails then s
    else { s with rollbackJob := some JobStatus.active }
  | some job =>
    if job = JobStatus.succeeded then
      setPhase { s with completionTimeSet := true } ExecutionPhase.rolledBack
        "Rollback completed"
    else if job = JobStatus.failed then
      setPhase s ExecutionPhase.failed "Rollback failed"
    else s

/-- Embedding of the phase switch of
`RunbookExecutionReconciler.Reconcile`. -/
def reconcileExec (s : ExecState) (env : ReconcileEnv) : ExecState :=
  match s.phase with
  | none => handlePending s env
  | some ExecutionPhase.pending => handlePending s env
  | some ExecutionPhase.pendingApproval => handlePendingApproval s env
  | some ExecutionPhase.approved => handleApproved s env
  | some ExecutionPhase.running => handleRunning s env
  | some ExecutionPhase.failed => handleFailed s env
  | some ExecutionPhase.rollingBack => handleRollingBack s env
  | some _ => s

/-- One transition of the cluster around a fixed referenced runbook `rb`: a
reconcile call (whose runbook fetch yields `rb` or an error), an external
status patch of `approvedBy`, or a worker Job finishing. Only the controller's
reconcile creates Jobs. -/
inductive ClusterStep (rb : RunbookSpec) : ExecState → ExecState → Prop where
  | reconcile (s : ExecState) (env : ReconcileEnv)
      (henv : env.runbook = none ∨ env.runbook = some rb) :
      ClusterStep rb s (reconcileExec s env)
  | patchApprovedBy (s : ExecState) (who : String) :
      ClusterStep rb s { s with approvedBy := who }
  | executorJobFinish (s : ExecState) (j : JobStatus)
      (h : s.executorJob = some JobStatus.active) :
      ClusterStep rb s { s with executorJob := some j }
  | rollbackJobFinish (s : ExecState) (j : JobStatus)
      (h : s.rollbackJob = some JobStatus.active) :
      ClusterStep rb s { s with rollbackJob := some j }

/-- A newborn execution resource: empty phase, no status stamps, no Jobs. -/
def initialExecState (name : String) : ExecState :=
  { name := name, phase := none, startTimeSet := false, completionTimeSet := false,
    approvedBy := "", message := "", jobName := "",
    executorJob := none, rollbackJob := none }

/-- States of one execution reachable from birth under `ClusterStep`. -/
inductive Reach (rb : RunbookSpec) : ExecState → Prop where
  | init (name : String) : Reach rb (initialExecState name)
  | step {s s' : ExecState} : Reach rb s → ClusterStep rb s s' → Reach rb s'


/-- A runbook requiring approval by the `noc-leads` group (approval-path
scenario). -/
def rbClearBGP : RunbookSpec :=
  { name := "clear-bgp", requiresApproval := true,
    approvers := [{ approverType := "group", name := "noc-leads" }],
    approvalTimeout := "1h",
    steps := [{ name := "clear", action := "gnmi_set", timeout := "",
                continueOnError := false, condition := "" }],
    rollback := [] }

/-- The same runbook with an explicit zero approval timeout. -/
def rbZeroTimeout : RunbookSpec :=
  { rbClearBGP with approvalTimeout := "0s" }

/-! ## Theorems -/

/-- C1: calling the Target Synchronizer's artifact writer (`UpdateConfigMap`)
with an empty data map performs no create or update against the configuration
store and returns success, leaving any existing artifact of that name
unchanged. -/
theorem updateConfigMap_empty_data_is_noop
    (store : String → Option StoredConfigMap) (name : String)
    (labels : List (String × String)) (now : String) (env : K8sWriteEnv) :
    UpdateConfigMap store name [] labels now env = (store, [], Except.ok ()) :=
  rfl

/-- `gnmic.parsePath` succeeds on every input string. -/
theorem parsePath_ok (s : String) : ∃ elems, parsePath s = Except.ok elems := by
  by_cases h : s = "" ∨ s = "/"
  · exact ⟨[], by simp [parsePath, h]⟩
  · exact ⟨(splitPath s).filter (fun elem => elem ≠ ""), by simp [parsePath, h]⟩

/-- The per-operation path-collection loop never fails. -/
theorem collectPaths_ok (paths : List String) :
    ∃ gnmiPaths, collectPaths paths = Except.ok gnmiPaths := by
  induction paths with
  | nil => exact ⟨[], rfl⟩
  | cons p rest ih =>
    obtain ⟨tl, htl⟩ := ih
    obtain ⟨e, he⟩ := parsePath_ok p
    exact ⟨e :: tl, by simp [collectPaths, he, htl]⟩

/-- C10: the gNMI path parser succeeds on every input string, so the
`invalid path` error branches of the Set, Get and Subscribe operations are
unreachable: the per-request path loops always return successfully parsed
paths. -/
theorem parsePath_total_pathError_unreachable :
    (∀ pathStr : String, ∃ elems, parsePath pathStr = Except.ok elems) ∧
    (∀ paths : List String, ∃ gnmiPaths, collectPaths paths = Except.ok gnmiPaths) :=
  ⟨parsePath_ok, collectPaths_ok⟩

/-- C6: for a flow record whose four exporter enrichment fields are empty on
input, a device-cache hit on the dotted-quad exporter IP populates
`ExporterName`, `ExporterSite`, `ExporterRegion` and `ExporterRole` from the
cached entry, and a miss leaves all four empty. -/
theorem applyNetBoxMetadata_exporter_enrichment
    (devices : List (String × DeviceMetadata)) (flow : EnrichedFlow)
    (hname : flow.exporterName = "") (hsite : flow.exporterSite = "")
    (hregion : flow.exporterRegion = "") (hrole : flow.exporterRole = "") :
    (∀ device, assocLookup (uint32ToIPString flow.exporterIp) devices = some device →
      (applyNetBoxMetadata devices flow).exporterName = device.name ∧
      (applyNetBoxMetadata devices flow).exporterSite = device.site ∧
      (applyNetBoxMetadata devices flow).exporterRegion = device.region ∧
      (applyNetBoxMetadata devices flow).exporterRole = device.role) ∧
    (assocLookup (uint32ToIPString flow.exporterIp) devices = none →
      (applyNetBoxMetadata devices flow).exporterName = "" ∧
      (applyNetBoxMetadata devices flow).exporterSite = "" ∧
      (applyNetBoxMetadata devices flow).exporterRegion = "" ∧
      (applyNetBoxMetadata devices flow).exporterRole = "") := by
  constructor
  · intro device hdev
    unfold applyNetBoxMetadata
    rw [hdev]
    cases h1 : assocLookup flow.inIf device.interfaces <;>
      cases h2 : assocLookup flow.outIf device.interfaces <;>
        simp [h1, h2]
  · intro hnone
    unfold applyNetBoxMetadata
    rw [hnone]
    exact ⟨hname, hsite, hregion, hrole⟩

/-- Witness for C6: the cache-hit scenario (exporter `10.0.0.1`,
cache entry `router-1`). -/
theorem applyNetBoxMetadata_exporter_enrichment_witness :
    (applyNetBoxMetadata dc1Cache flow5).exporterName = "router-1" ∧
    (applyNetBoxMetadata dc1Cache flow5).exporterSite = "dc1" := by
  have h := (applyNetBoxMetadata_exporter_enrichment dc1Cache flow5 rfl rfl rfl rfl).1
    { name := "router-1", site := "dc1", region := "us-east", role := "router",
      interfaces := [(1, { name := "Ethernet1", speed := 10000 }),
                     (2, { name := "Ethernet2", speed := 25000 })] }
    (by decide)
  exact ⟨h.1, h.2.1⟩

/-- C7: with a GeoIP reader present and a non-empty source (respectively
destination) IP byte vector, a non-zero input AS number passes through
unchanged and a zero input AS number is filled from the ASN-database
lookup. -/
theorem applyGeoIP_as_number_overwrites_zero_only
    (g : List Nat → GeoResult) (flow : EnrichedFlow) :
    (flow.srcIp ≠ [] →
      (flow.srcAs ≠ 0 → (applyGeoIP (some g) flow).srcAs = flow.srcAs) ∧
      (flow.srcAs = 0 → (applyGeoIP (some g) flow).srcAs = (g flow.srcIp).asNum)) ∧
    (flow.dstIp ≠ [] →
      (flow.dstAs ≠ 0 → (applyGeoIP (some g) flow).dstAs = flow.dstAs) ∧
      (flow.dstAs = 0 → (applyGeoIP (some g) flow).dstAs = (g flow.dstIp).asNum)) := by
  unfold applyGeoIP
  by_cases hsrc : flow.srcIp = [] <;> by_cases hdst : flow.dstIp = [] <;>
    by_cases hsa : flow.srcAs = 0 <;> by_cases hda : flow.dstAs = 0 <;>
      simp [hsrc, hdst, hsa, hda]

/-- Witness for C7: a flow with both IP vectors non-empty, a zero source AS
(filled from the lookup) and a non-zero destination AS (preserved). -/
theorem applyGeoIP_as_number_overwrites_zero_only_witness :
    (applyGeoIP (some geoFixture)
        { flow5 with srcIp := [192, 0, 2, 1], dstIp := [198, 51, 100, 7],
                     srcAs := 0, dstAs := 65000 }).srcAs = 64512 ∧
    (applyGeoIP (some geoFixture)
        { flow5 with srcIp := [192, 0, 2, 1], dstIp := [198, 51, 100, 7],
                     srcAs := 0, dstAs := 65000 }).dstAs = 65000 := by
  have h := applyGeoIP_as_number_overwrites_zero_only geoFixture
    { flow5 with srcIp := [192, 0, 2, 1], dstIp := [198, 51, 100, 7],
                 srcAs := 0, dstAs := 65000 }
  exact ⟨(h.1 (by decide)).2 rfl, (h.2 (by decide)).1 (by decide)⟩

/-- A submap entry read back after one `fetchInterfaces` loop body was either
already there, or the processed record's computed index is this (non-zero)
key. -/
theorem fetchInterfacesStep_lookup (m : List (Nat × InterfaceMetadata))
    (iface : NetboxInterfaceRecord) (idx : Nat) (meta : InterfaceMetadata)
    (h : assocLookup idx (fetchInterfacesStep m iface) = some meta) :
    assocLookup idx m = some meta ∨ (idx = ifaceSNMPIndex iface ∧ idx ≠ 0) := by
  simp only [fetchInterfacesStep] at h
  split at h
  · exact Or.inl h
  · rename_i hnz
    by_cases he : ifaceSNMPIndex iface = idx
    · right
      refine ⟨he.symm, ?_⟩
      rw [← he] at *
      intro hc
      exact hnz hc
    · left
      simpa [assocLookup, assocInsert, List.find?, he] using h

/-- Every entry of the interface submap built by the `fetchInterfaces` fold
comes from the accumulator or from a record with that non-zero computed
index. -/
theorem fetchInterfaces_foldl_mem (l : List NetboxInterfaceRecord) :
    ∀ (acc : List (Nat × InterfaceMetadata)) (idx : Nat) (meta : InterfaceMetadata),
      assocLookup idx (l.foldl fetchInterfacesStep acc) = some meta →
      assocLookup idx acc = some meta ∨ (idx ≠ 0 ∧ ∃ iface ∈ l, ifaceSNMPIndex iface = idx) := by
  induction l with
  | nil => intro acc idx meta h; exact Or.inl h
  | cons a l ih =>
    intro acc idx meta h
    rw [List.foldl_cons] at h
    rcases ih _ idx meta h with h1 | ⟨hnz, iface, hmem, hidx⟩
    · rcases fetchInterfacesStep_lookup _ _ _ _ h1 with h2 | ⟨heq, hnz⟩
      · exact Or.inl h2
      · exact Or.inr ⟨hnz, a, by simp, heq.symm⟩
    · exact Or.inr ⟨hnz, iface, by simp [hmem], hidx⟩

/-- Records whose computed SNMP index is zero contribute nothing to the
`fetchInterfaces` fold. -/
theorem fetchInterfaces_filter_foldl (l : List NetboxInterfaceRecord) :
    ∀ acc, (l.filter (fun i => ifaceSNMPIndex i != 0)).foldl fetchInterfacesStep acc =
      l.foldl fetchInterfacesStep acc := by
  induction l with
  | nil => intro acc; rfl
  | cons a l ih =>
    intro acc
    by_cases ha : ifaceSNMPIndex a = 0
    · have hstep : fetchInterfacesStep acc a = acc := by
        simp [fetchInterfacesStep, ha]
      simp [List.filter_cons, ha, List.foldl_cons, hstep, ih]
    · simp [List.filter_cons, ha, List.foldl_cons, ih]

/-- C8: the SNMP index of an inventory interface comes from the typed custom
field when present and otherwise from parsing the label; every entry of the
built submap stems from a record with that usable (non-zero) index; records
with no usable index — including non-numeric labels, skipped silently — are
discarded and leave the submap unchanged. -/
theorem fetchInterfaces_snmp_index_selection (ifaces : List NetboxInterfaceRecord) :
    (∀ idx meta, assocLookup idx (fetchInterfaces ifaces) = some meta →
      idx ≠ 0 ∧ ∃ iface ∈ ifaces, ifaceSNMPIndex iface = idx) ∧
    fetchInterfaces (ifaces.filter (fun i => ifaceSNMPIndex i != 0)) =
      fetchInterfaces ifaces ∧
    (∀ iface : NetboxInterfaceRecord,
      (∀ v, iface.customFieldsSNMPIndex = some v →
        ifaceSNMPIndex iface = (v % (2 ^ 32 : Int)).toNat) ∧
      (iface.customFieldsSNMPIndex = none → sscanfInt iface.label = none →
        ifaceSNMPIndex iface = 0)) := by
  refine ⟨?_, ?_, ?_⟩
  · intro idx meta h
    rcases fetchInterfaces_foldl_mem ifaces [] idx meta h with h1 | h2
    · simp [assocLookup] at h1
    · exact h2
  · exact fetchInterfaces_filter_foldl ifaces []
  · intro iface
    constructor
    · intro v hv
      simp [ifaceSNMPIndex, hv]
    · intro hcf hscan
      by_cases hl : iface.label = ""
      · simp [ifaceSNMPIndex, hcf, hl]
      · simp [ifaceSNMPIndex, hcf, hl, hscan]

/-- Witness for C8: on the sample records, `Ethernet2` is stored under index
2 parsed from its label, and the non-numeric label `mgmt` yields no entry. -/
theorem fetchInterfaces_snmp_index_selection_witness :
    (2 ≠ 0 ∧ ∃ iface ∈ sampleIfaces, ifaceSNMPIndex iface = 2) ∧
    ifaceSNMPIndex { id := 3, name := "mgmt0", speed := none,
                     customFieldsSNMPIndex := none, label := "mgmt" } = 0 :=
  ⟨(fetchInterfaces_snmp_index_selection sampleIfaces).1 2
      { name := "Ethernet2", speed := 25000 } (by decide),
   ((fetchInterfaces_snmp_index_selection sampleIfaces).2.2
      { id := 3, name := "mgmt0", speed := none,
        customFieldsSNMPIndex := none, label := "mgmt" }).2 rfl (by decide)⟩

/-- C2 counterexample: the blackbox generator emits entries for `router-1`
(a device with every taxonomy field set), yet none of them carries the
`vendor` key — the synthetic-probe descriptor does not carry all seven
taxonomy keys. -/
theorem blackbox_entry_missing_vendor_label :
    generateBlackboxEntries [router1] ≠ [] ∧
    ∀ e ∈ generateBlackboxEntries [router1], lookupLabel "vendor" e.2.labels = none := by
  decide

/-- C2 (amended): every entry of the gNMI and SNMP descriptor artifacts
carries all seven taxonomy keys, while every entry of the synthetic-probe
(blackbox) artifact carries only `device`, `site` and `region` of the
taxonomy (vendor, platform, role and tier are absent). -/
theorem generated_entry_label_taxonomy (devices : List Device) :
    (∀ e ∈ generateSNMPEntries devices, ∀ k ∈ LabelTaxonomy,
      lookupLabel k e.labels ≠ none) ∧
    (∀ t ∈ generateGNMICTargets devices, ∀ k ∈ LabelTaxonomy,
      lookupLabel k t.2.labels ≠ none) ∧
    (∀ e ∈ generateBlackboxEntries devices,
      lookupLabel "device" e.2.labels ≠ none ∧
      lookupLabel "site" e.2.labels ≠ none ∧
      lookupLabel "region" e.2.labels ≠ none ∧
      lookupLabel "vendor" e.2.labels = none ∧
      lookupLabel "platform" e.2.labels = none ∧
      lookupLabel "role" e.2.labels = none ∧
      lookupLabel "tier" e.2.labels = none) := by
  refine ⟨?_, ?_, ?_⟩
  · intro e he k hk
    simp only [generateSNMPEntries, List.mem_filterMap] at he
    obtain ⟨d, _, hd⟩ := he
    split at hd
    · simp at hd
    · injection hd with hd
      subst hd
      simp [LabelTaxonomy] at hk
      rcases hk with rfl | rfl | rfl | rfl | rfl | rfl | rfl <;> simp [lookupLabel]
  · intro t ht k hk
    simp only [generateGNMICTargets, List.mem_filterMap] at ht
    obtain ⟨d, _, hd⟩ := ht
    split at hd
    · simp at hd
    · injection hd with hd
      subst hd
      simp [LabelTaxonomy] at hk
      rcases hk with rfl | rfl | rfl | rfl | rfl | rfl | rfl <;> simp [lookupLabel]
  · intro e he
    simp only [generateBlackboxEntries, List.mem_flatMap, List.mem_filterMap] at he
    obtain ⟨d, _, probe, _, hd⟩ := he
    split at hd
    · simp at hd
    · injection hd with hd
      subst hd
      simp [lookupLabel]


theorem runStepsLoop_cons_skip (step : StepInput) (rest : List StepInput)
    (hc : step.condition ≠ "" ∧ (step.condResult = "false" ∨ step.condResult = "")) :
    runStepsLoop (step :: rest) =
      (StepStatus.skipped :: (runStepsLoop rest).1, (runStepsLoop rest).2) := by
  rcases hrl : runStepsLoop rest with ⟨tl, code⟩
  simp [runStepsLoop, hrl, hc]

theorem runStepsLoop_cons_ok (step : StepInput) (rest : List StepInput)
    (hc : ¬(step.condition ≠ "" ∧ (step.condResult = "false" ∨ step.condResult = "")))
    (v : String) (hexec : step.execOutcome = Except.ok v) :
    runStepsLoop (step :: rest) =
      (StepStatus.completed :: (runStepsLoop rest).1, (runStepsLoop rest).2) := by
  rcases hrl : runStepsLoop rest with ⟨tl, code⟩
  simp [runStepsLoop, hrl, hc, hexec]

theorem runStepsLoop_cons_failcont (step : StepInput) (rest : List StepInput)
    (hc : ¬(step.condition ≠ "" ∧ (step.condResult = "false" ∨ step.condResult = "")))
    (e : String) (hexec : step.execOutcome = Except.error e)
    (hcont : step.continueOnError = true) :
    runStepsLoop (step :: rest) =
      (StepStatus.failed :: (runStepsLoop rest).1, (runStepsLoop rest).2) := by
  rcases hrl : runStepsLoop rest with ⟨tl, code⟩
  simp [runStepsLoop, hrl, hc, hexec, hcont]

theorem runStepsLoop_cons_failstop (step : StepInput) (rest : List StepInput)
    (hc : ¬(step.condition ≠ "" ∧ (step.condResult = "false" ∨ step.condResult = "")))
    (e : String) (hexec : step.execOutcome = Except.error e)
    (hcont : step.continueOnError = false) :
    runStepsLoop (step :: rest) =
      (StepStatus.failed :: rest.map (fun _ => StepStatus.pending), 1) := by
  simp [runStepsLoop, hc, hexec, hcont]

theorem runStepsLoop_length (l : List StepInput) :
    (runStepsLoop l).1.length = l.length := by
  induction l with
  | nil => rfl
  | cons step rest ih =>
    by_cases hc : step.condition ≠ "" ∧ (step.condResult = "false" ∨ step.condResult = "")
    · rw [runStepsLoop_cons_skip step rest hc]; simp [ih]
    · cases hexec : step.execOutcome with
      | ok v => rw [runStepsLoop_cons_ok step rest hc v hexec]; simp [ih]
      | error e =>
        cases hcont : step.continueOnError with
        | true => rw [runStepsLoop_cons_failcont step rest hc e hexec hcont]; simp [ih]
        | false => rw [runStepsLoop_cons_failstop step rest hc e hexec hcont]; simp

theorem finalize_ne_pending (l : List StepStatus) :
    ∀ st ∈ finalizeStatuses l, st ≠ StepStatus.pending := by
  intro st hst
  simp only [finalizeStatuses, List.mem_map] at hst
  obtain ⟨x, _, rfl⟩ := hst
  cases x <;> simp

theorem finalize_failed_iff (x : StepStatus) :
    (if x = StepStatus.pending then StepStatus.skipped else x) = StepStatus.failed ↔
      x = StepStatus.failed := by
  cases x <;> simp

theorem runStepsLoop_code_iff (l : List StepInput) :
    (runStepsLoop l).2 = 0 ↔
      ∀ p ∈ l.zip (runStepsLoop l).1,
        p.2 = StepStatus.failed → p.1.continueOnError = true := by
  induction l with
  | nil => simp [runStepsLoop]
  | cons step rest ih =>
    by_cases hc : step.condition ≠ "" ∧ (step.condResult = "false" ∨ step.condResult = "")
    · rw [runStepsLoop_cons_skip step rest hc]
      simp [ih]
    · cases hexec : step.execOutcome with
      | ok v =>
        rw [runStepsLoop_cons_ok step rest hc v hexec]
        simp [ih]
      | error e =>
        cases hcont : step.continueOnError with
        | true =>
          rw [runStepsLoop_cons_failcont step rest hc e hexec hcont]
          simp [ih, hcont]
        | false =>
          rw [runStepsLoop_cons_failstop step rest hc e hexec hcont]
          refine iff_of_false (by simp) (fun hall => ?_)
          have h0 := hall (step, StepStatus.failed) (by simp) rfl
          simp [hcont] at h0

theorem runStepsLoop_fatal (l : List StepInput) :
    ∀ i j s, i < j → j < l.length → l[i]? = some s → s.continueOnError = false →
      (runStepsLoop l).1[i]? = some StepStatus.failed →
      (runStepsLoop l).1[j]? = some StepStatus.pending := by
  induction l with
  | nil => intro i j s _ hj; simp at hj
  | cons step rest ih =>
    intro i j s hij hj hs hcont hfail
    have hj' : ∀ j', j = j' + 1 → j' < rest.length := by
      intro j' hje; subst hje; simp at hj; omega
    by_cases hc : step.condition ≠ "" ∧ (step.condResult = "false" ∨ step.condResult = "")
    · rw [runStepsLoop_cons_skip step rest hc] at hfail ⊢
      cases i with
      | zero => simp at hfail
      | succ i' =>
        cases j with
        | zero => omega
        | succ j' =>
          simp only [List.getElem?_cons_succ] at hfail hs ⊢
          exact ih i' j' s (by omega) (hj' j' rfl) hs hcont hfail
    · cases hexec : step.execOutcome with
      | ok v =>
        rw [runStepsLoop_cons_ok step rest hc v hexec] at hfail ⊢
        cases i with
        | zero => simp at hfail
        | succ i' =>
          cases j with
          | zero => omega
          | succ j' =>
            simp only [List.getElem?_cons_succ] at hfail hs ⊢
            exact ih i' j' s (by omega) (hj' j' rfl) hs hcont hfail
      | error e =>
        cases hcont2 : step.continueOnError with
        | true =>
          rw [runStepsLoop_cons_failcont step rest hc e hexec hcont2] at hfail ⊢
          cases i with
          | zero =>
            simp only [List.getElem?_cons_zero, Option.some.injEq] at hs
            rw [hs, hcont] at hcont2
            simp at hcont2
          | succ i' =>
            cases j with
            | zero => omega
            | succ j' =>
              simp only [List.getElem?_cons_succ] at hfail hs ⊢
              exact ih i' j' s (by omega) (hj' j' rfl) hs hcont hfail
        | false =>
          rw [runStepsLoop_cons_failstop step rest hc e hexec hcont2] at hfail ⊢
          cases j with
          | zero => omega
          | succ j' =>
            cases i with
            | zero =>
              simp only [List.getElem?_cons_succ]
              have hjlt := hj' j' rfl
              simp [List.getElem?_replicate, hjlt]
            | succ i' =>
              simp only [List.getElem?_cons_succ] at hfail
              have hilt : i' < rest.length := by
                have := hj' j' rfl; omega
              simp [List.getElem?_replicate, hilt] at hfail

theorem zip_finalize_failed_iff (l : List StepInput) (raw : List StepStatus) :
    (∀ p ∈ l.zip (finalizeStatuses raw),
        p.2 = StepStatus.failed → p.1.continueOnError = true) ↔
    (∀ p ∈ l.zip raw, p.2 = StepStatus.failed → p.1.continueOnError = true) := by
  induction l generalizing raw with
  | nil => simp
  | cons a l ih =>
    cases raw with
    | nil => simp [finalizeStatuses]
    | cons x raw =>
      simp only [finalizeStatuses, List.map_cons, List.zip_cons_cons,
        List.forall_mem_cons]
      exact and_congr (imp_congr (finalize_failed_iff x) Iff.rfl)
        (by simpa [finalizeStatuses] using ih raw)

/-- C9: in the worker's sequential execution of a step list, a failing step
without `continueOnError` stops execution and every remaining untouched step
is marked Skipped; no final status is left Pending; and the exit code is zero
iff no step failed without `continueOnError`. -/
theorem runExecutor_step_semantics (steps : List StepInput) :
    (runExecutor steps).1.length = steps.length ∧
    (∀ st ∈ (runExecutor steps).1, st ≠ StepStatus.pending) ∧
    ((runExecutor steps).2 = 0 ↔
      ∀ p ∈ steps.zip (runExecutor steps).1,
        p.2 = StepStatus.failed → p.1.continueOnError = true) ∧
    (∀ i j s, i < j → j < steps.length → steps[i]? = some s →
      s.continueOnError = false →
      (runExecutor steps).1[i]? = some StepStatus.failed →
      (runExecutor steps).1[j]? = some StepStatus.skipped) := by
  have hre : runExecutor steps =
      (finalizeStatuses (runStepsLoop steps).1, (runStepsLoop steps).2) := by
    rcases h : runStepsLoop steps with ⟨st, c⟩
    simp [runExecutor, h]
  refine ⟨?_, ?_, ?_, ?_⟩
  · rw [hre]; simp [finalizeStatuses, runStepsLoop_length]
  · rw [hre]; exact finalize_ne_pending _
  · rw [hre]; dsimp only
    rw [zip_finalize_failed_iff]
    exact runStepsLoop_code_iff steps
  · intro i j s hij hj hs hcont hfail
    rw [hre] at hfail ⊢
    dsimp only at hfail ⊢
    have hraw : (runStepsLoop steps).1[i]? = some StepStatus.failed := by
      rw [finalizeStatuses, List.getElem?_map] at hfail
      cases hx : (runStepsLoop steps).1[i]? with
      | none => rw [hx] at hfail; simp at hfail
      | some x =>
        rw [hx] at hfail
        have hfx : (if x = StepStatus.pending then StepStatus.skipped else x) =
            StepStatus.failed := by simpa using hfail
        rw [(finalize_failed_iff x).mp hfx]
    have hp := runStepsLoop_fatal steps i j s hij hj hs hcont hraw
    rw [finalizeStatuses, List.getElem?_map, hp]
    rfl

/-- Witness for C9: on the two-step sample whose first step fails fatally,
the second step's final status is Skipped. -/
theorem runExecutor_step_semantics_witness :
    (runExecutor sampleSteps).1[1]? = some StepStatus.skipped :=
  (runExecutor_step_semantics sampleSteps).2.2.2 0 1
    { name := "set", condition := "", continueOnError := false, condResult := "",
      execOutcome := Except.error "rpc failed" }
    (by decide) (by decide) rfl rfl (by decide)

theorem handlePending_jobs (s : ExecState) (env : ReconcileEnv) :
    (handlePending s env).executorJob = s.executorJob ∧
    (handlePending s env).rollbackJob = s.rollbackJob := by
  cases henv : env.runbook with
  | none => simp [handlePending, henv, setPhase]
  | some rb =>
    by_cases hra : rb.requiresApproval <;> simp [handlePending, henv, setPhase, hra]

theorem handlePendingApproval_jobs (s : ExecState) (env : ReconcileEnv) :
    (handlePendingApproval s env).executorJob = s.executorJob ∧
    (handlePendingApproval s env).rollbackJob = s.rollbackJob := by
  by_cases happ : s.approvedBy ≠ "" <;> cases henv : env.runbook <;>
    simp [handlePendingApproval, happ, henv, setPhase] <;> split <;> simp

theorem handleApproved_jobs (s : ExecState) (env : ReconcileEnv) :
    (handleApproved s env).executorJob = s.executorJob ∧
    (handleApproved s env).rollbackJob = s.rollbackJob := by
  simp [handleApproved, setPhase]

theorem handleFailed_jobs (s : ExecState) (env : ReconcileEnv) :
    (handleFailed s env).executorJob = s.executorJob ∧
    (handleFailed s env).rollbackJob = s.rollbackJob := by
  cases henv : env.runbook with
  | none => simp [handleFailed, henv]
  | some rb =>
    by_cases hrb : rb.rollback = [] <;> simp [handleFailed, henv, setPhase, hrb]

theorem reconcile_no_entry_to_pending (s : ExecState) (env : ReconcileEnv)
    (h : (reconcileExec s env).phase = none ∨
         (reconcileExec s env).phase = some ExecutionPhase.pending ∨
         (reconcileExec s env).phase = some ExecutionPhase.pendingApproval) :
    s.phase = none ∨ s.phase = some ExecutionPhase.pending ∨
      s.phase = some ExecutionPhase.pendingApproval := by
  rcases hph : s.phase with _ | ph
  · exact Or.inl rfl
  · cases ph with
    | pending => exact Or.inr (Or.inl rfl)
    | pendingApproval => exact Or.inr (Or.inr rfl)
    | approved => simp [reconcileExec, hph, handleApproved, setPhase] at h
    | running =>
      simp only [reconcileExec, hph] at h
      rcases hej : s.executorJob with _ | j
      · by_cases hcf : env.createFails <;>
          simp [handleRunning, hej, hcf, hph, setPhase] at h
      · cases j <;> simp [handleRunning, hej, hph, setPhase] at h
    | failed =>
      simp only [reconcileExec, hph] at h
      cases henv : env.runbook with
      | none => simp [handleFailed, henv, hph] at h
      | some rb =>
        by_cases hrb : rb.rollback = [] <;>
          simp [handleFailed, henv, hrb, hph, setPhase] at h
    | rollingBack =>
      simp only [reconcileExec, hph] at h
      rcases hrj : s.rollbackJob with _ | j
      · by_cases hcf : env.createFails <;>
          simp [handleRollingBack, hrj, hcf, hph, setPhase] at h
      · cases j <;> simp [handleRollingBack, hrj, hph, setPhase] at h
    | completed => simp [reconcileExec, hph] at h
    | cancelled => simp [reconcileExec, hph] at h
    | timedOut => simp [reconcileExec, hph] at h
    | rolledBack => simp [reconcileExec, hph] at h

theorem reconcile_pending_jobs (s : ExecState) (env : ReconcileEnv)
    (h : s.phase = none ∨ s.phase = some ExecutionPhase.pending ∨
      s.phase = some ExecutionPhase.pendingApproval) :
    (reconcileExec s env).executorJob = s.executorJob ∧
    (reconcileExec s env).rollbackJob = s.rollbackJob := by
  rcases h with h | h | h <;> rw [reconcileExec] <;> rw [h]
  · exact handlePending_jobs s env
  · exact handlePending_jobs s env
  · exact handlePendingApproval_jobs s env

theorem reach_no_jobs_while_pending (rb : RunbookSpec) (s : ExecState) (h : Reach rb s) :
    (s.phase = none ∨ s.phase = some ExecutionPhase.pending ∨
      s.phase = some ExecutionPhase.pendingApproval) →
    s.executorJob = none ∧ s.rollbackJob = none := by
  induction h with
  | init name => intro _; exact ⟨rfl, rfl⟩
  | step hr hstep ih =>
    rename_i s s'
    cases hstep with
    | reconcile env henv =>
      intro hphase'
      have hsrc := reconcile_no_entry_to_pending s env hphase'
      have hjobs := reconcile_pending_jobs s env hsrc
      rw [hjobs.1, hjobs.2]
      exact ih hsrc
    | patchApprovedBy who =>
      intro hphase'
      exact ih (by simpa using hphase')
    | executorJobFinish j hj =>
      intro hphase'
      have hsj := ih (by simpa using hphase')
      simp [hj] at hsj
    | rollbackJobFinish j hj =>
      intro hphase'
      have hsj := ih (by simpa using hphase')
      simp [hj] at hsj


theorem handleRunning_rollbackJob (s : ExecState) (env : ReconcileEnv) :
    (handleRunning s env).rollbackJob = s.rollbackJob := by
  rcases hej : s.executorJob with _ | j
  · by_cases hcf : env.createFails <;> simp [handleRunning, hej, hcf, setPhase]
  · cases j <;> simp [handleRunning, hej, setPhase]

theorem handleRollingBack_executorJob (s : ExecState) (env : ReconcileEnv) :
    (handleRollingBack s env).executorJob = s.executorJob := by
  rcases hrj : s.rollbackJob with _ | j
  · by_cases hcf : env.createFails <;> simp [handleRollingBack, hrj, hcf, setPhase]
  · cases j <;> simp [handleRollingBack, hrj, setPhase]

theorem reconcile_jobs_unchanged (s : ExecState) (env : ReconcileEnv)
    (hnr : s.phase ≠ some ExecutionPhase.running)
    (hnrb : s.phase ≠ some ExecutionPhase.rollingBack) :
    (reconcileExec s env).executorJob = s.executorJob ∧
    (reconcileExec s env).rollbackJob = s.rollbackJob := by
  rcases hph : s.phase with _ | ph
  · simp only [reconcileExec, hph]
    exact handlePending_jobs s env
  · cases ph with
    | pending =>
      simp only [reconcileExec, hph]
      exact handlePending_jobs s env
    | pendingApproval =>
      simp only [reconcileExec, hph]
      exact handlePendingApproval_jobs s env
    | approved =>
      simp only [reconcileExec, hph]
      exact handleApproved_jobs s env
    | running => exact absurd hph hnr
    | failed =>
      simp only [reconcileExec, hph]
      exact handleFailed_jobs s env
    | rollingBack => exact absurd hph hnrb
    | completed => simp [reconcileExec, hph]
    | cancelled => simp [reconcileExec, hph]
    | timedOut => simp [reconcileExec, hph]
    | rolledBack => simp [reconcileExec, hph]

theorem step_creates_worker_only_in_running (rb : RunbookSpec) (s s' : ExecState)
    (hstep : ClusterStep rb s s') (hej : s.executorJob = none)
    (hrj : s.rollbackJob = none)
    (hnew : s'.executorJob ≠ none ∨ s'.rollbackJob ≠ none) :
    s.phase = some ExecutionPhase.running ∨ s.phase = some ExecutionPhase.rollingBack := by
  cases hstep with
  | reconcile env henv =>
    by_cases hr : s.phase = some ExecutionPhase.running
    · exact Or.inl hr
    by_cases hrb2 : s.phase = some ExecutionPhase.rollingBack
    · exact Or.inr hrb2
    have hjobs := reconcile_jobs_unchanged s env hr hrb2
    exfalso
    rcases hnew with h | h
    · exact h (hjobs.1.trans hej)
    · exact h (hjobs.2.trans hrj)
  | patchApprovedBy who =>
    exfalso
    rcases hnew with h | h
    · exact h (by simpa using hej)
    · exact h (by simpa using hrj)
  | executorJobFinish j hj =>
    rw [hej] at hj
    cases hj
  | rollbackJobFinish j hj =>
    rw [hrj] at hj
    cases hj

/-- C3: for every execution of a template with `requiresApproval = true`, in
every reachable controller state no worker Job exists while the phase is
Pending or PendingApproval, and any step that first creates a worker does so
from phase Running (or RollingBack). -/
theorem no_worker_during_pending_phases (rb : RunbookSpec) (s : ExecState)
    (h : Reach rb s) (_happrove : rb.requiresApproval = true) :
    ((s.phase = some ExecutionPhase.pending ∨
        s.phase = some ExecutionPhase.pendingApproval) →
      s.executorJob = none ∧ s.rollbackJob = none) ∧
    (∀ s', ClusterStep rb s s' → s.executorJob = none → s.rollbackJob = none →
      (s'.executorJob ≠ none ∨ s'.rollbackJob ≠ none) →
      s.phase = some ExecutionPhase.running ∨
        s.phase = some ExecutionPhase.rollingBack) := by
  constructor
  · intro hph
    exact reach_no_jobs_while_pending rb s h (by tauto)
  · intro s' hstep he hrj hnew
    exact step_creates_worker_only_in_running rb s s' hstep he hrj hnew

/-- Witness for C3: after the first reconcile of a newborn execution of
`clear-bgp` (phase PendingApproval), no worker Job exists. -/
theorem no_worker_during_pending_phases_witness :
    (reconcileExec (initialExecState "exec-1")
        { runbook := some rbClearBGP, elapsedNs := 0, createFails := false }).executorJob
        = none ∧
    (reconcileExec (initialExecState "exec-1")
        { runbook := some rbClearBGP, elapsedNs := 0, createFails := false }).rollbackJob
        = none :=
  (no_worker_during_pending_phases rbClearBGP _
      (Reach.step (Reach.init "exec-1")
        (ClusterStep.reconcile _ _ (Or.inr rfl))) rfl).1
    (Or.inr (by decide))


theorem reconcileExec_pendingApproval (s : ExecState) (env : ReconcileEnv)
    (hphase : s.phase = some ExecutionPhase.pendingApproval) :
    reconcileExec s env = handlePendingApproval s env := by
  simp [reconcileExec, hphase]

/-- C4: in phase PendingApproval with a non-empty `approvedBy`, the
controller transitions to Approved (stamping StartTime) when `approvedBy`
matches the name of an entry of the template approver list, and otherwise to
Failed with a message naming the rejected approver. -/
theorem handlePendingApproval_approver_gate (s : ExecState) (env : ReconcileEnv)
    (rb : RunbookSpec) (hphase : s.phase = some ExecutionPhase.pendingApproval)
    (hrb : env.runbook = some rb) (happ : s.approvedBy ≠ "") :
    ((∃ a ∈ rb.approvers, a.name = s.approvedBy) →
      (reconcileExec s env).phase = some ExecutionPhase.approved ∧
      (reconcileExec s env).startTimeSet = true) ∧
    ((¬ ∃ a ∈ rb.approvers, a.name = s.approvedBy) →
      (reconcileExec s env).phase = some ExecutionPhase.failed ∧
      (reconcileExec s env).message = approverRejectedMessage s.approvedBy) := by
  rw [reconcileExec_pendingApproval s env hphase]
  constructor
  · rintro ⟨a, ha, hname⟩
    have hvalid : rb.approvers.any (fun x => x.name = s.approvedBy) = true := by
      rw [List.any_eq_true]
      exact ⟨a, ha, by simp [hname]⟩
    simp [handlePendingApproval, happ, hrb, hvalid, setPhase]
  · intro hnone
    have hvalid : rb.approvers.any (fun x => x.name = s.approvedBy) = false := by
      rw [Bool.eq_false_iff]
      intro hc
      rw [List.any_eq_true] at hc
      obtain ⟨a, ha, hname⟩ := hc
      exact hnone ⟨a, ha, by simpa using hname⟩
    simp [handlePendingApproval, happ, hrb, hvalid, setPhase]

/-- Witness for C4: `noc-leads` is approved; `intern` is rejected with the
message naming it. -/
theorem handlePendingApproval_approver_gate_witness :
    (reconcileExec
        { initialExecState "exec-1" with
            phase := some ExecutionPhase.pendingApproval, approvedBy := "noc-leads" }
        { runbook := some rbClearBGP, elapsedNs := 0, createFails := false }).phase
      = some ExecutionPhase.approved ∧
    (reconcileExec
        { initialExecState "exec-2" with
            phase := some ExecutionPhase.pendingApproval, approvedBy := "intern" }
        { runbook := some rbClearBGP, elapsedNs := 0, createFails := false }).message
      = approverRejectedMessage "intern" :=
  ⟨((handlePendingApproval_approver_gate _ _ rbClearBGP rfl rfl (by decide)).1
      ⟨{ approverType := "group", name := "noc-leads" }, by decide, rfl⟩).1,
   ((handlePendingApproval_approver_gate _ _ rbClearBGP rfl rfl (by decide)).2
      (by decide)).2⟩

/-- C5 (amended): in phase PendingApproval with `approvedBy` unset, the
controller transitions to TimedOut exactly when the elapsed time since
resource creation exceeds the effective timeout, which is the parsed
`approvalTimeout` except that a parse failure (unset or unparseable) or a
parsed value of zero yields the one-hour default; otherwise the state is
unchanged and the execution requeued. -/
theorem handlePendingApproval_timeout (s : ExecState) (env : ReconcileEnv)
    (rb : RunbookSpec) (hphase : s.phase = some ExecutionPhase.pendingApproval)
    (happ : s.approvedBy = "") (hrb : env.runbook = some rb) :
    ((reconcileExec s env).phase = some ExecutionPhase.timedOut ↔
      env.elapsedNs > approvalTimeoutNs rb.approvalTimeout) ∧
    (¬ env.elapsedNs > approvalTimeoutNs rb.approvalTimeout → reconcileExec s env = s) ∧
    (parseDuration rb.approvalTimeout = none →
      approvalTimeoutNs rb.approvalTimeout = 3600000000000) := by
  rw [reconcileExec_pendingApproval s env hphase]
  refine ⟨?_, ?_, ?_⟩
  · by_cases ht : env.elapsedNs > approvalTimeoutNs rb.approvalTimeout
    · simp [handlePendingApproval, happ, hrb, ht, setPhase]
    · simp [handlePendingApproval, happ, hrb, ht, hphase]
  · intro hnt
    simp [handlePendingApproval, happ, hrb, hnt]
  · intro hp
    simp [approvalTimeoutNs, hp]

/-- Witness for C5: a two-hour wait against the one-hour `clear-bgp` timeout
times out, and the unset timeout string defaults to one hour. -/
theorem handlePendingApproval_timeout_witness :
    ((reconcileExec
        { initialExecState "exec-3" with phase := some ExecutionPhase.pendingApproval }
        { runbook := some rbClearBGP, elapsedNs := 7200000000000,
          createFails := false }).phase = some ExecutionPhase.timedOut) ∧
    approvalTimeoutNs "" = 3600000000000 :=
  ⟨(handlePendingApproval_timeout _ _ rbClearBGP rfl rfl rfl).1.mpr (by decide),
   (handlePendingApproval_timeout
      { initialExecState "exec-3" with phase := some ExecutionPhase.pendingApproval }
      { runbook := some { rbClearBGP with approvalTimeout := "" },
        elapsedNs := 0, createFails := false }
      { rbClearBGP with approvalTimeout := "" } rfl rfl rfl).2.2 rfl⟩

/-- C5 counterexample: with `approvalTimeout = "0s"` — parseable, so the
claim's timeout is zero — and 30 minutes elapsed (greater than zero), the
controller leaves the execution unchanged in PendingApproval instead of
transitioning it to TimedOut, because the code also replaces a parsed zero
with the one-hour default. -/
theorem approval_timeout_zero_duration_counterexample :
    reconcileExec
        { initialExecState "exec-0" with phase := some ExecutionPhase.pendingApproval }
        { runbook := some rbZeroTimeout, elapsedNs := 1800000000000, createFails := false }
      = { initialExecState "exec-0" with phase := some ExecutionPhase.pendingApproval } ∧
    (1800000000000 : Int) > specApprovalTimeoutNs rbZeroTimeout.approvalTimeout := by
  constructor
  · decide
  · decide

end Helios
